import Mathlib

/-!
Shallow embedding of `src/codegeneration/ModuleTransformer.js` (traceur-compiler).

The transformer lowers a module-scoped parse tree (import/export/module-alias
statements) into plain script statements.  Output trees are modelled by the
`ParseTree` inductive below (one constructor per tree shape the transformer
constructs, mirroring `ParseTrees.js` constructors and the templates fed to the
placeholder parser).  Input module-level statements are modelled by `ModStmt`.
The transformer's mutable instance state (`idMappingStack_` plus the temp
identifier counter inherited from `TempVarTransformer`) is threaded explicitly
as `MTState`.  Fatal `assert` failures are modelled as `Option.none`.
-/

namespace Traceur

/-- Output parse trees: one constructor per node shape the transformer builds,
following `ParseTrees.js` / `ParseTreeFactory.js` and the literal templates
passed to `parseExpression` / `parsePropertyDefinition` / `parseStatement`. -/
inductive ParseTree where
  | identifierExpression (name : String)
  | memberExpression (operand : ParseTree) (memberName : String)
  | callExpression (operand : ParseTree) (args : List ParseTree)
  | literalString (value : String)
  | literalNull
  | literalBool (b : Bool)
  | objectLiteralExpression (propertyNameAndValues : List ParseTree)
  | propertyNameAssignment (name : String) (value : ParseTree)
  | functionExpression (body : List ParseTree)
  | thisExpression
  | returnStatement (expression : ParseTree)
  | expressionStatement (expression : ParseTree)
  | variableStatement (binding : ParseTree) (initializer : ParseTree)
  | emptyStatement
  | bindingIdentifier (name : String)
  | bindingElement (binding : ParseTree)
  | objectPattern (fields : List ParseTree)
  | objectPatternField (name : String) (element : ParseTree)
  | script (scriptItemList : List ParseTree)

/-- A module specifier literal; identity for de-duplication purposes is the
token's processed (normalized textual) value (`moduleSpecifier.token.processedValue`). -/
structure ModuleSpecifier where
  token : String

/-- The tree recorded for an export symbol (`symbol.tree`): an
`EXPORT_SPECIFIER` (with lhs and optional rhs), an `EXPORT_STAR`, or any other
declaration kind (the `default` arm of `getGetterExport`). -/
inductive ExportTree where
  | exportSpecifier (lhs : String) (rhs : Option String)
  | exportStar
  | otherTree

/-- An export symbol from the module's symbol table: name, originating tree and
the optional related module-specifier tree (`symbol.relatedTree`). -/
structure ExportSymbol where
  name : String
  tree : ExportTree
  relatedTree : Option ModuleSpecifier

/-- Modelled from the spec: a resolved `Module` (the symbol-resolution pass and
module registry are outside this file's source) supplies a canonical URL and
the ordered export list `getExports()`. -/
structure TModule where
  url : Option String
  getExports : List ExportSymbol

/-- Modelled from the spec: the `Project` collaborator supplies a fallback URL
and resolves a wildcard import-specifier-set tree (identified here by a tree
id) to its target module (`project.getModuleForStarTree`). -/
structure Project where
  url : Option String
  getModuleForStarTree : Nat → TModule

/-- An import specifier `lhs` or `lhs: rhs` (remote name and optional local alias). -/
structure ImportSpecifier where
  lhs : String
  rhs : Option String

/-- An import specifier set: either a wildcard (`STAR`) tree, identified by a
tree id so the project can resolve its target module, or a list of specifiers. -/
inductive ImportSpecifierSet where
  | star (treeId : Nat)
  | specifiers (l : List ImportSpecifier)

/-- Expression under a `ModuleDeclaration` (`module a = b.c`): either a module
specifier (rewritten by `transformModuleSpecifier`) or any other expression
(copied unchanged by the generic walk). -/
inductive ModExpr where
  | moduleSpec (ms : ModuleSpecifier)
  | otherExpr (tree : ParseTree)

/-- Module-level input statements dispatched by the transformer; statements of
any other kind are reconstructed unchanged by the generic tree walk. -/
inductive ModStmt where
  | importDeclaration (importSpecifierSet : ImportSpecifierSet) (moduleSpecifier : ModuleSpecifier)
  | namedExport (moduleSpecifier : Option ModuleSpecifier)
  | exportDeclaration (declaration : ModStmt)
  | moduleDeclaration (identifier : String) (expression : ModExpr)
  | otherStatement (tree : ParseTree)

/-- Top-level input tree, tagged `SCRIPT` or `MODULE` (`tree.type`). -/
inductive ProgramTree where
  | scriptTree (scriptItemList : List ModStmt)
  | moduleTree (scriptItemList : List ModStmt)

/-- The transformer instance's immutable fields: the project and the optional
module (`new ModuleTransformer(project, module = null)`). -/
structure ModuleTransformer where
  project : Project
  module : Option TModule

/-- The transformer instance's mutable state: `idMappingStack_` (innermost
mapping at the head; a mapping is an association list from a specifier's
processed value to the generated temp name) and the temp-identifier counter
inherited from `TempVarTransformer`. -/
structure MTState where
  idMappingStack : List (List (String × String))
  tempCounter : Nat

/-- Constructor state: `this.idMappingStack_ = [Object.create(null)]` and a
fresh identifier generator. -/
def initialState : MTState := ⟨[[]], 0⟩

/-- Modelled from the spec: `TempVarTransformer.getTempIdentifier` (outside
this file's source) allocates a fresh, globally-unique local identifier drawn
from a reserved namespace; modelled as an injective counter-indexed name. -/
def tempIdent (k : Nat) : String :=
  String.mk ('$' :: '_' :: '_' :: List.replicate k '$')

/-- Association-list lookup in one mapping of the scope stack
(`idMapping[moduleName]`, with a hit being a truthy generated name). -/
def lookupId : List (String × String) → String → Option String
  | [], _ => none
  | p :: rest, k => if p.1 = k then some p.2 else lookupId rest k

/-- `this.url`: the module's URL when a module is present, else the project's. -/
def ModuleTransformer.url (mt : ModuleTransformer) : Option String :=
  match mt.module with
  | some m => m.url
  | none => mt.project.url

/-- JavaScript truthiness of the optional URL string, as tested by
`assert(this.url)`: absent or empty is falsy. -/
def urlTruthy : Option String → Bool
  | none => false
  | some s => s ≠ ""

/-- The innermost mapping of the scope stack
(`this.idMappingStack_[this.idMappingStack_.length - 1]`). -/
def innermostMapping (st : MTState) : List (String × String) :=
  st.idMappingStack.headD []

/-- `getTempVarNameForModuleSpecifier`: consult the innermost mapping of
`idMappingStack_` keyed by the specifier token's processed value; on a miss,
allocate a fresh temp identifier and record it.  Returns the name and the
updated state. -/
def getTempVarNameForModuleSpecifier (st : MTState) (ms : ModuleSpecifier) :
    String × MTState :=
  let idMapping := innermostMapping st
  match lookupId idMapping ms.token with
  | some id => (id, st)
  | none =>
      let id := tempIdent st.tempCounter
      (id, ⟨((ms.token, id) :: idMapping) :: st.idMappingStack.tail,
            st.tempCounter + 1⟩)

/-- `pushTempVarState`: push a fresh empty mapping. -/
def pushTempVarState (st : MTState) : MTState :=
  ⟨[] :: st.idMappingStack, st.tempCounter⟩

/-- `popTempVarState`: discard the innermost mapping. -/
def popTempVarState (st : MTState) : MTState :=
  ⟨st.idMappingStack.tail, st.tempCounter⟩

/-- The property definition built by the `parsePropertyDefinition` template in
`getGetterExport`: `NAME: { get: function() { return EXPR; }, enumerable: true }`. -/
def getterPropertyDefinition (name : String) (returnExpression : ParseTree) : ParseTree :=
  .propertyNameAssignment name (.objectLiteralExpression
    [.propertyNameAssignment "get" (.functionExpression [.returnStatement returnExpression]),
     .propertyNameAssignment "enumerable" (.literalBool true)])

/-- `getGetterExport`: choose the getter's return expression by the export
tree's kind, then build the property definition.  The `EXPORT_STAR` arm
asserts a related tree is present (`assert(symbol.relatedTree)`); failure is
`none`. -/
def getGetterExport (st : MTState) (symbol : ExportSymbol) :
    Option (ParseTree × MTState) :=
  match symbol.tree with
  | .exportSpecifier lhs _ =>
      match symbol.relatedTree with
      | some moduleSpecifier =>
          let r := getTempVarNameForModuleSpecifier st moduleSpecifier
          some (getterPropertyDefinition symbol.name
                  (.memberExpression (.identifierExpression r.1) lhs), r.2)
      | none =>
          some (getterPropertyDefinition symbol.name (.identifierExpression lhs), st)
  | .exportStar =>
      match symbol.relatedTree with
      | none => none
      | some moduleSpecifier =>
          let r := getTempVarNameForModuleSpecifier st moduleSpecifier
          some (getterPropertyDefinition symbol.name
                  (.memberExpression (.identifierExpression r.1) symbol.name), r.2)
  | .otherTree =>
      some (getterPropertyDefinition symbol.name (.identifierExpression symbol.name), st)

/-- The state-threaded `map` over the export list inside
`createExportStatement` (the JS arrow function mutates `this` in place). -/
def getterExports (st : MTState) : List ExportSymbol → Option (List ParseTree × MTState)
  | [] => some ([], st)
  | e :: rest =>
      match getGetterExport st e with
      | none => none
      | some r =>
          match getterExports r.2 rest with
          | none => none
          | some rs => some (r.1 :: rs.1, rs.2)

/-- `createExportStatement`: one getter property per export, assembled into
`return Object.preventExtensions(Object.create(null, DESCRIPTORS));`.
Dereferencing a null `this.module` is fatal (`none`). -/
def createExportStatement (mt : ModuleTransformer) (st : MTState) :
    Option (ParseTree × MTState) :=
  match mt.module with
  | none => none
  | some m =>
      match getterExports st m.getExports with
      | none => none
      | some r =>
          let descriptors := ParseTree.objectLiteralExpression r.1
          some (.returnStatement
            (.callExpression (.memberExpression (.identifierExpression "Object") "preventExtensions")
              [.callExpression (.memberExpression (.identifierExpression "Object") "create")
                [.literalNull, descriptors]]), r.2)

/-- `transformModuleSpecifier`: the `parseExpression` template
`System.get(TOKEN)`. -/
def transformModuleSpecifier (ms : ModuleSpecifier) : ParseTree :=
  .callExpression (.memberExpression (.identifierExpression "System") "get")
    [.literalString ms.token]

/-- `transformImportSpecifier`: `lhs: rhs` becomes an object-pattern field
binding local `rhs` to remote property `lhs`; a bare `lhs` becomes a simple
binding element. -/
def transformImportSpecifier (tree : ImportSpecifier) : ParseTree :=
  match tree.rhs with
  | some rhs => .objectPatternField tree.lhs (.bindingElement (.bindingIdentifier rhs))
  | none => .bindingElement (.bindingIdentifier tree.lhs)

/-- `transformImportSpecifierSet`: a `STAR` set expands eagerly into one simple
binding per export of the target module (resolved by the project); a named set
transforms each specifier.  Either way the fields form an `ObjectPattern`. -/
def transformImportSpecifierSet (mt : ModuleTransformer) (tree : ImportSpecifierSet) :
    ParseTree :=
  match tree with
  | .star treeId =>
      .objectPattern ((mt.project.getModuleForStarTree treeId).getExports.map
        fun exportSymbol => .bindingElement (.bindingIdentifier exportSymbol.name))
  | .specifiers l => .objectPattern (l.map transformImportSpecifier)

/-- `transformImportDeclaration`: `var PATTERN = System.get(TOKEN)`. -/
def transformImportDeclaration (mt : ModuleTransformer) (tree : ImportSpecifierSet)
    (ms : ModuleSpecifier) : ParseTree :=
  .variableStatement (transformImportSpecifierSet mt tree) (transformModuleSpecifier ms)

/-- `transformNamedExport`: with a module specifier, bind the allocator's temp
name for it to the lowered specifier expression; without one, an
`EmptyStatement`. -/
def transformNamedExport (st : MTState) (moduleSpecifier : Option ModuleSpecifier) :
    ParseTree × MTState :=
  match moduleSpecifier with
  | some ms =>
      let expression := transformModuleSpecifier ms
      let r := getTempVarNameForModuleSpecifier st ms
      (.variableStatement (.bindingIdentifier r.1) expression, r.2)
  | none => (.emptyStatement, st)

/-- `transformModuleDeclaration`: `var IDENT = INITIALIZER` with the
initializer rewritten by the generic walk (a module specifier lowers per
`transformModuleSpecifier`, anything else is unchanged). -/
def transformModuleDeclaration (identifier : String) (expression : ModExpr) : ParseTree :=
  let initializer :=
    match expression with
    | .moduleSpec ms => transformModuleSpecifier ms
    | .otherExpr t => t
  .variableStatement (.bindingIdentifier identifier) initializer

/-- Modelled from the spec: the generic per-kind dispatch (`transformAny` of
the tree-walking framework, outside this file's source) routes each
module-level statement to the transformer's handler and reconstructs any other
statement unchanged; `transformExportDeclaration` recurses into the wrapped
declaration. -/
def transformAny (mt : ModuleTransformer) (st : MTState) :
    ModStmt → ParseTree × MTState
  | .importDeclaration set ms => (transformImportDeclaration mt set ms, st)
  | .namedExport ms => transformNamedExport st ms
  | .exportDeclaration d => transformAny mt st d
  | .moduleDeclaration id e => (transformModuleDeclaration id e, st)
  | .otherStatement t => (t, st)

/-- Modelled from the spec: `transformList` of the tree-walking framework maps
`transformAny` over a statement list, threading the transformer's state left
to right. -/
def transformList (mt : ModuleTransformer) (st : MTState) :
    List ModStmt → List ParseTree × MTState
  | [] => ([], st)
  | s :: rest =>
      let r := transformAny mt st s
      let rs := transformList mt r.2 rest
      (r.1 :: rs.1, rs.2)

/-- `createUseStrictDirective()`: the `"use strict"` directive statement. -/
def createUseStrictDirective : ParseTree :=
  .expressionStatement (.literalString "use strict")

/-- The `parseStatement` template in `transformModule`:
`System.get('@traceur/module').registerModule(URL, function() { STATEMENTS }, this);`. -/
def registerStatement (url : String) (statements : List ParseTree) : ParseTree :=
  .expressionStatement (.callExpression
    (.memberExpression
      (.callExpression (.memberExpression (.identifierExpression "System") "get")
        [.literalString "@traceur/module"])
      "registerModule")
    [.literalString url, .functionExpression statements, .thisExpression])

/-- `transformModule`: assert a truthy URL, push a temp-var scope, rewrite the
statement list, append the export statement after the `"use strict"` directive,
pop the scope, and wrap everything in the registration statement of a
single-statement `Script`. -/
def transformModule (mt : ModuleTransformer) (st : MTState)
    (scriptItemList : List ModStmt) : Option ParseTree :=
  if urlTruthy mt.url then
    let u := (mt.url).getD ""
    let st1 := pushTempVarState st
    let r := transformList mt st1 scriptItemList
    match createExportStatement mt r.2 with
    | none => none
    | some rex =>
        -- popTempVarState discards the innermost mapping; the resulting state is
        -- not used further (the JS instance state dies with the invocation).
        some (.script [registerStatement u (createUseStrictDirective :: (r.1 ++ [rex.1]))])
  else none

/-- Modelled from the spec: `transformScript` of the tree-walking framework
rebuilds a `SCRIPT` tree from the transformed statement list; a `MODULE` tree
dispatches to `transformModule`. -/
def transformAnyProgram (mt : ModuleTransformer) (st : MTState) :
    ProgramTree → Option ParseTree
  | .scriptTree items => some (.script (transformList mt st items).1)
  | .moduleTree items => transformModule mt st items

/-- Static `ModuleTransformer.transform(project, tree)`:
`assert(tree.type === SCRIPT)` then transform with a null module. -/
def ModuleTransformer.transform (project : Project) (tree : ProgramTree) :
    Option ParseTree :=
  match tree with
  | .scriptTree _ => transformAnyProgram ⟨project, none⟩ initialState tree
  | .moduleTree _ => none

/-- Static `ModuleTransformer.transformAsModule(project, module, tree)`:
`assert(tree.type === MODULE); assert(module)` then transform with that module. -/
def ModuleTransformer.transformAsModule (project : Project) (module : Option TModule)
    (tree : ProgramTree) : Option ParseTree :=
  match tree, module with
  | .moduleTree _, some m => transformAnyProgram ⟨project, some m⟩ initialState tree
  | _, _ => none

/-! Concrete fixtures used by witnesses and counterexamples. -/

/-- A module with no exports and a truthy URL. -/
def sampleModule : TModule := ⟨some "out/m.js", []⟩

/-- A project whose star-tree resolution always yields `sampleModule`. -/
def sampleProject : Project := ⟨some "out/p.js", fun _ => sampleModule⟩

/-- A transformer over `sampleProject` transforming `sampleModule`. -/
def sampleTransformer : ModuleTransformer := ⟨sampleProject, some sampleModule⟩

/-- A module with one own-binding export and one star re-export. -/
def witnessModule : TModule :=
  ⟨some "out/w.js",
   [⟨"a", ExportTree.otherTree, none⟩,
    ⟨"b", ExportTree.exportStar, some ⟨"q"⟩⟩]⟩

/-- A transformer over `sampleProject` transforming `witnessModule`. -/
def witnessTransformer : ModuleTransformer := ⟨sampleProject, some witnessModule⟩

/-- Well-formedness of one allocator mapping: every stored name is a temp
identifier allocated below the counter, and stored names are pairwise
distinct.  This is the invariant the allocator maintains across a transform. -/
def MapWF (c : Nat) (m : List (String × String)) : Prop :=
  (∀ p ∈ m, ∃ j, j < c ∧ p.2 = tempIdent j) ∧
  m.Pairwise (fun p q => p.2 ≠ q.2)

/-- Well-formedness of the allocator state: the innermost mapping is
well-formed with respect to the temp counter. -/
def StateWF (st : MTState) : Prop := MapWF st.tempCounter (innermostMapping st)

/-! Helper lemmas. -/

theorem tempIdent_injective : Function.Injective tempIdent := by
  intro a b hab
  have hlist : ('$' :: '_' :: '_' :: List.replicate a '$') =
      ('$' :: '_' :: '_' :: List.replicate b '$') := congrArg String.data hab
  simpa using congrArg List.length hlist

/-- Equation lemma: a hit in the innermost mapping is returned with no state change. -/
theorem getTempVarName_eq_hit (st : MTState) (ms : ModuleSpecifier) (v : String)
    (h : lookupId (innermostMapping st) ms.token = some v) :
    getTempVarNameForModuleSpecifier st ms = (v, st) := by
  simp [getTempVarNameForModuleSpecifier, h]

/-- Equation lemma: a miss allocates the next temp identifier and records it in
the innermost mapping. -/
theorem getTempVarName_eq_miss (st : MTState) (ms : ModuleSpecifier)
    (h : lookupId (innermostMapping st) ms.token = none) :
    getTempVarNameForModuleSpecifier st ms =
      (tempIdent st.tempCounter,
       ⟨((ms.token, tempIdent st.tempCounter) :: innermostMapping st) ::
          st.idMappingStack.tail, st.tempCounter + 1⟩) := by
  simp [getTempVarNameForModuleSpecifier, h]

/-- The innermost mapping of a state whose stack has an explicit head. -/
theorem innermostMapping_cons (m : List (String × String))
    (rest : List (List (String × String))) (c : Nat) :
    innermostMapping ⟨m :: rest, c⟩ = m := rfl

theorem lookupId_mem (m : List (String × String)) (k v : String)
    (h : lookupId m k = some v) : ∃ q ∈ m, q.2 = v := by
  induction m with
  | nil => simp [lookupId] at h
  | cons p rest ih =>
      rw [lookupId] at h
      by_cases e : p.1 = k
      · rw [if_pos e] at h
        exact ⟨p, List.mem_cons_self _ _, (Option.some.injEq _ _).mp h.symm |>.symm⟩
      · rw [if_neg e] at h
        obtain ⟨q, hq, hqv⟩ := ih h
        exact ⟨q, List.mem_cons_of_mem _ hq, hqv⟩

theorem lookupId_ne (m : List (String × String))
    (hpw : m.Pairwise (fun p q => p.2 ≠ q.2)) (k1 k2 v1 v2 : String)
    (hk : k1 ≠ k2) (h1 : lookupId m k1 = some v1) (h2 : lookupId m k2 = some v2) :
    v1 ≠ v2 := by
  induction m with
  | nil => simp [lookupId] at h1
  | cons p rest ih =>
      rw [lookupId] at h1 h2
      obtain ⟨hp, hrest⟩ := List.pairwise_cons.mp hpw
      by_cases e1 : p.1 = k1
      · rw [if_pos e1] at h1
        by_cases e2 : p.1 = k2
        · exact absurd (e1 ▸ e2) hk
        · rw [if_neg e2] at h2
          obtain ⟨q, hq, hqv⟩ := lookupId_mem rest k2 v2 h2
          have := hp q hq
          rw [hqv] at this
          rw [← (Option.some.injEq _ _).mp h1]
          exact this
      · rw [if_neg e1] at h1
        by_cases e2 : p.1 = k2
        · rw [if_pos e2] at h2
          obtain ⟨q, hq, hqv⟩ := lookupId_mem rest k1 v1 h1
          have := hp q hq
          rw [hqv] at this
          rw [← (Option.some.injEq _ _).mp h2]
          exact fun hv => this hv.symm
        · rw [if_neg e2] at h2
          exact ih hrest h1 h2

/-- After a lookup, the innermost mapping maps the specifier's token to the
returned name. -/
theorem lookupId_after_get (st : MTState) (ms : ModuleSpecifier) :
    lookupId (innermostMapping ((getTempVarNameForModuleSpecifier st ms).2))
        ms.token = some (getTempVarNameForModuleSpecifier st ms).1 := by
  cases hl : lookupId (innermostMapping st) ms.token with
  | some v => rw [getTempVarName_eq_hit st ms v hl]; exact hl
  | none => rw [getTempVarName_eq_miss st ms hl, innermostMapping_cons]; simp [lookupId]

/-- Allocation never disturbs an existing entry of the innermost mapping. -/
theorem lookupId_preserved (st : MTState) (m : ModuleSpecifier) (k v : String)
    (h : lookupId (innermostMapping st) k = some v) :
    lookupId (innermostMapping ((getTempVarNameForModuleSpecifier st m).2))
        k = some v := by
  cases hl : lookupId (innermostMapping st) m.token with
  | some v2 => rw [getTempVarName_eq_hit st m v2 hl]; exact h
  | none =>
      have hne : m.token ≠ k := by
        intro he; rw [he] at hl; rw [hl] at h; exact Option.noConfusion h
      rw [getTempVarName_eq_miss st m hl, innermostMapping_cons]
      simpa [lookupId, hne] using h

/-- Every getter property produced by `getGetterExport` is named after the
export symbol and carries the getter/enumerable descriptor shape. -/
theorem getGetterExport_name_getter (st : MTState) (sym : ExportSymbol)
    (p : ParseTree) (st' : MTState) (h : getGetterExport st sym = some (p, st')) :
    ∃ e, p = getterPropertyDefinition sym.name e := by
  obtain ⟨name, tree, rel⟩ := sym
  cases tree with
  | exportSpecifier lhs rhs =>
      cases rel with
      | some ms =>
          simp only [getGetterExport, Option.some.injEq, Prod.mk.injEq] at h
          exact ⟨_, h.1.symm⟩
      | none =>
          simp only [getGetterExport, Option.some.injEq, Prod.mk.injEq] at h
          exact ⟨_, h.1.symm⟩
  | exportStar =>
      cases rel with
      | some ms =>
          simp only [getGetterExport, Option.some.injEq, Prod.mk.injEq] at h
          exact ⟨_, h.1.symm⟩
      | none => simp [getGetterExport] at h
  | otherTree =>
      simp only [getGetterExport, Option.some.injEq, Prod.mk.injEq] at h
      exact ⟨_, h.1.symm⟩

/-! Claim theorems. -/

/-- C4: the getter body produced by `getGetterExport` follows the tie-break
table: an `ExportSpecifier` with a related module specifier reads a member
access on the allocator's temp name for that specifier keyed by the
specifier's left-hand name; an `ExportSpecifier` without a related specifier
reads the left-hand identifier directly; an `ExportStar` reads a member access
on the temp name for its related specifier keyed by the export's name; every
other origin kind reads the export's own identifier directly. -/
theorem getGetterExport_table (st : MTState) (sym : ExportSymbol) :
    (∀ lhs rhs ms, sym.tree = ExportTree.exportSpecifier lhs rhs →
      sym.relatedTree = some ms →
      getGetterExport st sym =
        some (getterPropertyDefinition sym.name
            (.memberExpression
              (.identifierExpression (getTempVarNameForModuleSpecifier st ms).1) lhs),
          (getTempVarNameForModuleSpecifier st ms).2)) ∧
    (∀ lhs rhs, sym.tree = ExportTree.exportSpecifier lhs rhs →
      sym.relatedTree = none →
      getGetterExport st sym =
        some (getterPropertyDefinition sym.name (.identifierExpression lhs), st)) ∧
    (∀ ms, sym.tree = ExportTree.exportStar → sym.relatedTree = some ms →
      getGetterExport st sym =
        some (getterPropertyDefinition sym.name
            (.memberExpression
              (.identifierExpression (getTempVarNameForModuleSpecifier st ms).1) sym.name),
          (getTempVarNameForModuleSpecifier st ms).2)) ∧
    (sym.tree = ExportTree.otherTree →
      getGetterExport st sym =
        some (getterPropertyDefinition sym.name (.identifierExpression sym.name), st)) := by
  refine ⟨?_, ?_, ?_, ?_⟩
  · intro lhs rhs ms h1 h2; simp [getGetterExport, h1, h2]
  · intro lhs rhs h1 h2; simp [getGetterExport, h1, h2]
  · intro ms h1 h2; simp [getGetterExport, h1, h2]
  · intro h1; simp [getGetterExport, h1]

/-- C4 witness: a re-export specifier `x` for export `a` related to specifier
`m`, evaluated from the constructor state. -/
theorem getGetterExport_table_witness :
    getGetterExport initialState ⟨"a", ExportTree.exportSpecifier "x" none, some ⟨"m"⟩⟩ =
      some (getterPropertyDefinition "a"
          (.memberExpression
            (.identifierExpression
              (getTempVarNameForModuleSpecifier initialState ⟨"m"⟩).1) "x"),
        (getTempVarNameForModuleSpecifier initialState ⟨"m"⟩).2) :=
  (getGetterExport_table initialState
    ⟨"a", ExportTree.exportSpecifier "x" none, some ⟨"m"⟩⟩).1 "x" none ⟨"m"⟩ rfl rfl

/-- C5: an `ExportStar` symbol with no related specifier fails the assertion in
`getGetterExport` before producing any descriptor; with a related specifier
present the error branch is unreachable. -/
theorem getGetterExport_star_requires_related (st : MTState) (sym : ExportSymbol)
    (h : sym.tree = ExportTree.exportStar) :
    (sym.relatedTree = none → getGetterExport st sym = none) ∧
    (∀ ms, sym.relatedTree = some ms → (getGetterExport st sym).isSome = true) := by
  constructor
  · intro hn; simp [getGetterExport, h, hn]
  · intro ms hs; simp [getGetterExport, h, hs]

/-- C5 witness: a concrete star export without a related tree is rejected and
one with a related tree succeeds. -/
theorem getGetterExport_star_requires_related_witness :
    getGetterExport initialState ⟨"a", ExportTree.exportStar, none⟩ = none ∧
    (getGetterExport initialState ⟨"b", ExportTree.exportStar, some ⟨"m"⟩⟩).isSome = true :=
  ⟨(getGetterExport_star_requires_related initialState
      ⟨"a", ExportTree.exportStar, none⟩ rfl).1 rfl,
   (getGetterExport_star_requires_related initialState
      ⟨"b", ExportTree.exportStar, some ⟨"m"⟩⟩ rfl).2 ⟨"m"⟩ rfl⟩

/-- C6: the entry points enforce their preconditions fatally: `transform` on a
non-`SCRIPT` tree yields nothing; `transformAsModule` on a non-`MODULE` tree or
with a null module yields nothing; and `transformModule` yields nothing when
the resolvable URL is missing or empty. -/
theorem entryPoint_preconditions :
    (∀ (p : Project) (items : List ModStmt),
      ModuleTransformer.transform p (.moduleTree items) = none) ∧
    (∀ (p : Project) (m : Option TModule) (items : List ModStmt),
      ModuleTransformer.transformAsModule p m (.scriptTree items) = none) ∧
    (∀ (p : Project) (tree : ProgramTree),
      ModuleTransformer.transformAsModule p none tree = none) ∧
    (∀ (mt : ModuleTransformer) (st : MTState) (items : List ModStmt),
      urlTruthy mt.url = false → transformModule mt st items = none) := by
  refine ⟨fun p items => rfl, fun p m items => ?_, fun p tree => ?_,
    fun mt st items h => ?_⟩
  · cases m <;> rfl
  · cases tree <;> rfl
  · simp [transformModule, h]

/-- C6 witness: each precondition violation evaluated on a concrete input. -/
theorem entryPoint_preconditions_witness :
    ModuleTransformer.transform sampleProject (.moduleTree []) = none ∧
    ModuleTransformer.transformAsModule sampleProject (some sampleModule)
      (.scriptTree []) = none ∧
    ModuleTransformer.transformAsModule sampleProject none (.moduleTree []) = none ∧
    transformModule ⟨⟨none, fun _ => sampleModule⟩, none⟩ initialState [] = none :=
  ⟨entryPoint_preconditions.1 sampleProject [],
   entryPoint_preconditions.2.1 sampleProject (some sampleModule) [],
   entryPoint_preconditions.2.2.1 sampleProject (.moduleTree []),
   entryPoint_preconditions.2.2.2 ⟨⟨none, fun _ => sampleModule⟩, none⟩
     initialState [] rfl⟩

/-- C7: a wildcard import specifier set expands eagerly into exactly one simple
binding field per entry of the target module's resolved export list, in that
order, and the enclosing import declaration lowers to a destructuring variable
declaration over that pattern. -/
theorem transformImportSpecifierSet_star (mt : ModuleTransformer) (st : MTState)
    (treeId : Nat) (ms : ModuleSpecifier) :
    transformImportSpecifierSet mt (.star treeId) =
      .objectPattern ((mt.project.getModuleForStarTree treeId).getExports.map
        fun e => ParseTree.bindingElement (.bindingIdentifier e.name)) ∧
    transformAny mt st (.importDeclaration (.star treeId) ms) =
      (.variableStatement
        (.objectPattern ((mt.project.getModuleForStarTree treeId).getExports.map
          fun e => ParseTree.bindingElement (.bindingIdentifier e.name)))
        (transformModuleSpecifier ms), st) :=
  ⟨rfl, rfl⟩

/-- C9 counterexample: a named export carrying no module specifier still
contributes a statement (an `EmptyStatement`) to the rewritten statement list,
so the output list is not shortened. -/
theorem transformNamedExport_counterexample :
    (transformList sampleTransformer initialState [ModStmt.namedExport none]).1 ≠ [] := by
  simp [transformList, transformAny, transformNamedExport]

/-- C9 (amended): a named export with a module specifier becomes a variable
declaration binding the allocator's temp name for that specifier to the
lowered specifier expression; one without a specifier becomes an
`EmptyStatement` (a syntactic no-op that still occupies a slot in the output
list). -/
theorem transformNamedExport_spec (st : MTState) :
    (∀ ms, transformNamedExport st (some ms) =
      (.variableStatement
        (.bindingIdentifier (getTempVarNameForModuleSpecifier st ms).1)
        (transformModuleSpecifier ms),
       (getTempVarNameForModuleSpecifier st ms).2)) ∧
    transformNamedExport st none = (.emptyStatement, st) :=
  ⟨fun _ => rfl, rfl⟩

/-- C10: a wildcard import whose target module has an empty export list lowers
to an empty object pattern, and the import declaration still becomes a
(degenerate) variable declaration rather than an error. -/
theorem wildcard_empty_exports (mt : ModuleTransformer) (st : MTState) (treeId : Nat)
    (ms : ModuleSpecifier)
    (h : (mt.project.getModuleForStarTree treeId).getExports = []) :
    transformImportSpecifierSet mt (.star treeId) = .objectPattern [] ∧
    transformAny mt st (.importDeclaration (.star treeId) ms) =
      (.variableStatement (.objectPattern []) (transformModuleSpecifier ms), st) := by
  constructor
  · simp [transformImportSpecifierSet, h]
  · simp [transformAny, transformImportDeclaration, transformImportSpecifierSet, h]

/-- C10 witness: a concrete wildcard import against a target with no exports. -/
theorem wildcard_empty_exports_witness :
    (sampleTransformer.project.getModuleForStarTree 0).getExports = [] ∧
    transformAny sampleTransformer initialState
      (.importDeclaration (.star 0) ⟨"m"⟩) =
      (.variableStatement (.objectPattern []) (transformModuleSpecifier ⟨"m"⟩),
       initialState) :=
  ⟨rfl, (wildcard_empty_exports sampleTransformer initialState 0 ⟨"m"⟩ rfl).2⟩

/-- The getter list built over an export list is one getter property per
symbol, named in the export list's order. -/
theorem getterExports_shape (syms : List ExportSymbol) :
    ∀ (st : MTState) (r : List ParseTree × MTState),
      getterExports st syms = some r →
      ∃ es : List ParseTree, es.length = syms.length ∧
        r.1 = List.zipWith getterPropertyDefinition (syms.map ExportSymbol.name) es := by
  induction syms with
  | nil =>
      intro st r h
      simp only [getterExports, Option.some.injEq] at h
      subst h
      exact ⟨[], rfl, rfl⟩
  | cons e rest ih =>
      intro st r h
      simp only [getterExports] at h
      cases hg : getGetterExport st e with
      | none => rw [hg] at h; exact absurd h (by simp)
      | some r1 =>
          simp only [hg] at h
          cases hr : getterExports r1.2 rest with
          | none => simp only [hr] at h; exact absurd h (by simp)
          | some rs =>
              simp only [hr, Option.some.injEq] at h
              subst h
              obtain ⟨es, hlen, hps⟩ := ih r1.2 rs (by rw [hr])
              obtain ⟨e0, he0⟩ := getGetterExport_name_getter st e r1.1 r1.2 (by rw [hg])
              refine ⟨e0 :: es, by simp [hlen], ?_⟩
              simp [he0, hps]

/-- C1: `createExportStatement` produces a single
`return Object.preventExtensions(Object.create(null, DESCRIPTORS))` statement
whose descriptors object literal holds exactly one getter/enumerable property
per symbol of the module's export list, named in exactly the export list's
order. -/
theorem createExportStatement_shape (mt : ModuleTransformer) (st : MTState)
    (m : TModule) (hm : mt.module = some m) (ret : ParseTree) (st' : MTState)
    (h : createExportStatement mt st = some (ret, st')) :
    ∃ es : List ParseTree, es.length = m.getExports.length ∧
      ret = .returnStatement
        (.callExpression
          (.memberExpression (.identifierExpression "Object") "preventExtensions")
          [.callExpression
            (.memberExpression (.identifierExpression "Object") "create")
            [.literalNull,
             .objectLiteralExpression
               (List.zipWith getterPropertyDefinition
                 (m.getExports.map ExportSymbol.name) es)]]) := by
  simp only [createExportStatement, hm] at h
  cases hg : getterExports st m.getExports with
  | none => rw [hg] at h; exact absurd h (by simp)
  | some r =>
      rw [hg] at h
      simp only [Option.some.injEq, Prod.mk.injEq] at h
      obtain ⟨es, hlen, hps⟩ := getterExports_shape m.getExports st r (by rw [hg])
      refine ⟨es, hlen, ?_⟩
      rw [← h.1, hps]

/-- C1 witness: the export statement of `witnessModule` (exports `a` then `b`),
evaluated concretely. -/
theorem createExportStatement_shape_witness :
    ∃ es : List ParseTree, es.length = witnessModule.getExports.length ∧
      ParseTree.returnStatement
        (.callExpression
          (.memberExpression (.identifierExpression "Object") "preventExtensions")
          [.callExpression
            (.memberExpression (.identifierExpression "Object") "create")
            [.literalNull,
             .objectLiteralExpression
               [getterPropertyDefinition "a" (.identifierExpression "a"),
                getterPropertyDefinition "b"
                  (.memberExpression (.identifierExpression (tempIdent 0)) "b")]]]) =
      .returnStatement
        (.callExpression
          (.memberExpression (.identifierExpression "Object") "preventExtensions")
          [.callExpression
            (.memberExpression (.identifierExpression "Object") "create")
            [.literalNull,
             .objectLiteralExpression
               (List.zipWith getterPropertyDefinition
                 (witnessModule.getExports.map ExportSymbol.name) es)]]) :=
  createExportStatement_shape witnessTransformer initialState witnessModule rfl
    (ParseTree.returnStatement
      (.callExpression
        (.memberExpression (.identifierExpression "Object") "preventExtensions")
        [.callExpression
          (.memberExpression (.identifierExpression "Object") "create")
          [.literalNull,
           .objectLiteralExpression
             [getterPropertyDefinition "a" (.identifierExpression "a"),
              getterPropertyDefinition "b"
                (.memberExpression (.identifierExpression (tempIdent 0)) "b")]]]))
    ⟨[[("q", tempIdent 0)]], 1⟩ rfl

/-- C2: a successful `transformModule` yields a `Script` whose sole statement
is the `System.get('@traceur/module').registerModule(URL, function() { ... },
this)` call, and the function body is the `"use strict"` directive, then the
rewritten input statement list, then the export return statement, in that
order. -/
theorem transformModule_shape (mt : ModuleTransformer) (st : MTState)
    (items : List ModStmt) (out : ParseTree)
    (h : transformModule mt st items = some out) :
    ∃ (u : String) (rex : ParseTree × MTState),
      mt.url = some u ∧ u ≠ "" ∧
      createExportStatement mt (transformList mt (pushTempVarState st) items).2 =
        some rex ∧
      out = .script [registerStatement u
        (createUseStrictDirective ::
          ((transformList mt (pushTempVarState st) items).1 ++ [rex.1]))] := by
  simp only [transformModule] at h
  cases hmu : mt.url with
  | none => rw [hmu] at h; simp [urlTruthy] at h
  | some u =>
      rw [hmu] at h
      by_cases hne : u = ""
      · subst hne; simp [urlTruthy] at h
      · have ht : urlTruthy (some u) = true := by simp [urlTruthy, hne]
        simp only [ht, if_true] at h
        cases hc : createExportStatement mt (transformList mt (pushTempVarState st) items).2 with
        | none => rw [hc] at h; exact absurd h (by simp)
        | some rex =>
            rw [hc] at h
            simp only [Option.some.injEq, Option.getD_some] at h
            exact ⟨u, rex, rfl, hne, rfl, h.symm⟩

/-- C2 witness: transforming the empty module body of `sampleModule`. -/
theorem transformModule_shape_witness :
    ∃ (u : String) (rex : ParseTree × MTState),
      sampleTransformer.url = some u ∧ u ≠ "" ∧
      createExportStatement sampleTransformer
          (transformList sampleTransformer (pushTempVarState initialState) []).2 =
        some rex ∧
      ParseTree.script [registerStatement "out/m.js"
          (createUseStrictDirective ::
            (([] : List ParseTree) ++
              [ParseTree.returnStatement
                (.callExpression
                  (.memberExpression (.identifierExpression "Object") "preventExtensions")
                  [.callExpression
                    (.memberExpression (.identifierExpression "Object") "create")
                    [.literalNull, .objectLiteralExpression []]])]))] =
        .script [registerStatement u
          (createUseStrictDirective ::
            ((transformList sampleTransformer (pushTempVarState initialState) []).1 ++
              [rex.1]))] :=
  transformModule_shape sampleTransformer initialState []
    (ParseTree.script [registerStatement "out/m.js"
      (createUseStrictDirective ::
        (([] : List ParseTree) ++
          [ParseTree.returnStatement
            (.callExpression
              (.memberExpression (.identifierExpression "Object") "preventExtensions")
              [.callExpression
                (.memberExpression (.identifierExpression "Object") "create")
                [.literalNull, .objectLiteralExpression []]])]))]) rfl

/-- C3: within one temp-name scope, the allocator is idempotent per specifier
value: an immediately repeated lookup for the same normalized token returns the
identical temp name and leaves the state unchanged, and the same name is still
returned after any number of intervening lookups for other specifiers. -/
theorem getTempVarName_idempotent (st : MTState) (ms1 ms2 : ModuleSpecifier)
    (others : List ModuleSpecifier) (h : ms1.token = ms2.token) :
    getTempVarNameForModuleSpecifier
        (getTempVarNameForModuleSpecifier st ms1).2 ms2 =
      ((getTempVarNameForModuleSpecifier st ms1).1,
       (getTempVarNameForModuleSpecifier st ms1).2) ∧
    (getTempVarNameForModuleSpecifier
      (others.foldl (fun s m => (getTempVarNameForModuleSpecifier s m).2)
        (getTempVarNameForModuleSpecifier st ms1).2) ms2).1 =
      (getTempVarNameForModuleSpecifier st ms1).1 := by
  have h1 := lookupId_after_get st ms1
  have hfold : ∀ (ls : List ModuleSpecifier) (s : MTState),
      lookupId (innermostMapping s) ms1.token =
        some (getTempVarNameForModuleSpecifier st ms1).1 →
      lookupId (innermostMapping
          (ls.foldl (fun s m => (getTempVarNameForModuleSpecifier s m).2) s))
        ms1.token = some (getTempVarNameForModuleSpecifier st ms1).1 := by
    intro ls
    induction ls with
    | nil => intro s hs; exact hs
    | cons m rest ih =>
        intro s hs
        exact ih _ (lookupId_preserved s m _ _ hs)
  constructor
  · exact getTempVarName_eq_hit _ ms2 _ (h ▸ h1)
  · rw [getTempVarName_eq_hit _ ms2 _ (h ▸ hfold others _ h1)]

/-- C3 witness: a repeated lookup for specifier value `m`, with an intervening
lookup for `k`, still returns the first temp name. -/
theorem getTempVarName_idempotent_witness :
    getTempVarNameForModuleSpecifier
        (getTempVarNameForModuleSpecifier initialState ⟨"m"⟩).2 ⟨"m"⟩ =
      ((getTempVarNameForModuleSpecifier initialState ⟨"m"⟩).1,
       (getTempVarNameForModuleSpecifier initialState ⟨"m"⟩).2) ∧
    (getTempVarNameForModuleSpecifier
      ([⟨"k"⟩].foldl (fun s m => (getTempVarNameForModuleSpecifier s m).2)
        (getTempVarNameForModuleSpecifier initialState ⟨"m"⟩).2) ⟨"m"⟩).1 =
      (getTempVarNameForModuleSpecifier initialState ⟨"m"⟩).1 :=
  getTempVarName_idempotent initialState ⟨"m"⟩ ⟨"m"⟩ [⟨"k"⟩] rfl

/-- C8: within one well-formed temp-name scope, two module specifiers with
distinct normalized token values map to two distinct temp names, and
re-exporting from the two values produces two distinct lowered
`System.get(TOKEN)` lookup-call variable bindings. -/
theorem distinctSpecifierValues (st : MTState) (hwf : StateWF st)
    (ms1 ms2 : ModuleSpecifier) (hne : ms1.token ≠ ms2.token) :
    (getTempVarNameForModuleSpecifier st ms1).1 ≠
      (getTempVarNameForModuleSpecifier
        (getTempVarNameForModuleSpecifier st ms1).2 ms2).1 ∧
    transformNamedExport st (some ms1) =
      (.variableStatement
        (.bindingIdentifier (getTempVarNameForModuleSpecifier st ms1).1)
        (transformModuleSpecifier ms1),
       (getTempVarNameForModuleSpecifier st ms1).2) ∧
    transformNamedExport (getTempVarNameForModuleSpecifier st ms1).2 (some ms2) =
      (.variableStatement
        (.bindingIdentifier (getTempVarNameForModuleSpecifier
          (getTempVarNameForModuleSpecifier st ms1).2 ms2).1)
        (transformModuleSpecifier ms2),
       (getTempVarNameForModuleSpecifier
          (getTempVarNameForModuleSpecifier st ms1).2 ms2).2) ∧
    transformModuleSpecifier ms1 ≠ transformModuleSpecifier ms2 := by
  obtain ⟨hbound, hpw⟩ := hwf
  refine ⟨?_, rfl, rfl, ?_⟩
  · cases hl1 : lookupId (innermostMapping st) ms1.token with
    | some v1 =>
        rw [getTempVarName_eq_hit st ms1 v1 hl1]
        cases hl2 : lookupId (innermostMapping st) ms2.token with
        | some v2 =>
            rw [getTempVarName_eq_hit st ms2 v2 hl2]
            exact lookupId_ne _ hpw ms1.token ms2.token v1 v2 hne hl1 hl2
        | none =>
            rw [getTempVarName_eq_miss st ms2 hl2]
            obtain ⟨q, hq, hqv⟩ := lookupId_mem _ _ _ hl1
            obtain ⟨j, hj, hjv⟩ := hbound q hq
            rw [← hqv, hjv]
            intro hc
            exact absurd (tempIdent_injective hc) (Nat.ne_of_lt hj)
    | none =>
        rw [getTempVarName_eq_miss st ms1 hl1]
        cases hl2 : lookupId (innermostMapping st) ms2.token with
        | some v2 =>
            have hlook : lookupId (innermostMapping
                (⟨((ms1.token, tempIdent st.tempCounter) :: innermostMapping st) ::
                    st.idMappingStack.tail, st.tempCounter + 1⟩ : MTState))
                ms2.token = some v2 := by
              rw [innermostMapping_cons, lookupId, if_neg hne]
              exact hl2
            rw [getTempVarName_eq_hit _ ms2 v2 hlook]
            obtain ⟨q, hq, hqv⟩ := lookupId_mem _ _ _ hl2
            obtain ⟨j, hj, hjv⟩ := hbound q hq
            rw [← hqv, hjv]
            intro hc
            exact absurd (tempIdent_injective hc) (Nat.ne_of_lt hj).symm
        | none =>
            have hlook : lookupId (innermostMapping
                (⟨((ms1.token, tempIdent st.tempCounter) :: innermostMapping st) ::
                    st.idMappingStack.tail, st.tempCounter + 1⟩ : MTState))
                ms2.token = none := by
              rw [innermostMapping_cons, lookupId, if_neg hne]
              exact hl2
            rw [getTempVarName_eq_miss _ ms2 hlook]
            intro hc
            exact absurd (tempIdent_injective hc) (by simp)
  · intro hc
    apply hne
    simpa [transformModuleSpecifier] using hc

/-- C8 witness: specifier values `a` and `b` looked up in sequence from the
well-formed constructor state yield distinct names and distinct bindings. -/
theorem distinctSpecifierValues_witness :
    (getTempVarNameForModuleSpecifier initialState ⟨"a"⟩).1 ≠
      (getTempVarNameForModuleSpecifier
        (getTempVarNameForModuleSpecifier initialState ⟨"a"⟩).2 ⟨"b"⟩).1 ∧
    transformNamedExport initialState (some ⟨"a"⟩) =
      (.variableStatement
        (.bindingIdentifier (getTempVarNameForModuleSpecifier initialState ⟨"a"⟩).1)
        (transformModuleSpecifier ⟨"a"⟩),
       (getTempVarNameForModuleSpecifier initialState ⟨"a"⟩).2) ∧
    transformNamedExport (getTempVarNameForModuleSpecifier initialState ⟨"a"⟩).2
        (some ⟨"b"⟩) =
      (.variableStatement
        (.bindingIdentifier (getTempVarNameForModuleSpecifier
          (getTempVarNameForModuleSpecifier initialState ⟨"a"⟩).2 ⟨"b"⟩).1)
        (transformModuleSpecifier ⟨"b"⟩),
       (getTempVarNameForModuleSpecifier
          (getTempVarNameForModuleSpecifier initialState ⟨"a"⟩).2 ⟨"b"⟩).2) ∧
    transformModuleSpecifier ⟨"a"⟩ ≠ transformModuleSpecifier ⟨"b"⟩ :=
  distinctSpecifierValues initialState
    ⟨fun p hp => absurd hp (List.not_mem_nil p), List.Pairwise.nil⟩
    ⟨"a"⟩ ⟨"b"⟩ (by decide)

end Traceur
